import Mathlib

/-
Verification of the "immediate execution shim" specified for the caffe2
Immediate-mode tutorial (src/caffe2/python/tutorials/experimental/Immediate.ipynb).
The notebook only calls the shim (workspace.StartImmediate, StopImmediate,
FeedImmediate, FetchImmediate, ImmediateBlobs, core.CreateOperator,
workspace.RunOperatorOnce); the shim implementation itself is not part of the
source tree, so the component is modelled from the specification (spec.md,
sections 3, 4.1, 6, 7) and the claims are settled against that model.
-/

namespace Immediate

/-- Modelled from the spec: a tensor-like payload ("Named Value" payload, spec
section 3).  The scenarios in the spec use small integer matrices, so payloads
are embedded as lists of rows of integers. -/
abbrev Value := List (List Int)

/-- Modelled from the spec: a name-to-value mapping ("store", spec section 3).
Uniqueness of names is maintained by the write operation, which overwrites. -/
abbrev Store := List (String × Value)

/-- Modelled from the spec: lookup of a named value in a store. -/
def lookupStore : Store → String → Option Value
  | [], _ => none
  | (k, v) :: rest, n => if k = n then some v else lookupStore rest n

/-- Modelled from the spec: write a named value into a store, creating the
entry or overwriting an existing entry of the same name (spec sections 3, 4.1). -/
def feedStore : Store → String → Value → Store
  | [], n, v => [(n, v)]
  | (k, w) :: rest, n, v =>
    if k = n then (n, v) :: rest else (k, w) :: feedStore rest n v

/-- Whether a store contains a blob of the given name (workspace.HasBlob in
the notebook). -/
def hasBlob (st : Store) (n : String) : Bool :=
  (lookupStore st n).isSome

/-- Modelled from the spec: write a list of (output name, value) pairs into a
store in order, each write overwriting any existing entry of that name. -/
def writeOuts : Store → List (String × Value) → Store
  | st, [] => st
  | st, (n, v) :: rest => writeOuts (feedStore st n v) rest

/-- Modelled from the spec: an operator declaration, carrying the operator
type name, list of input names and list of output names (spec section 6;
keyword attributes are opaque to the shim and omitted). -/
structure OpSpec where
  opType : String
  inputs : List String
  outputs : List String
deriving DecidableEq, Repr

/-- Modelled from the spec: the external execution engine, "a pure function
from (operator spec, resolved inputs) to outputs" (spec section 6).  It is an
injected collaborator, so theorems quantify over it. -/
abbrev Engine := OpSpec → List Value → List Value

/-- Modelled from the spec: the error kinds of spec section 7. -/
inductive Err where
  | alreadyActive
  | notActive
  | missingInput (name : String)
  | notFound (name : String)
deriving DecidableEq, Repr

/-- Modelled from the spec: the whole-system state: the Primary Store owned by
the Deferred Builder, the list of operator declarations the Deferred Builder
has recorded, and the shim Activation State.  The Auxiliary Store exists
exactly while the shim is active, so it is carried inside the option. -/
structure SysState where
  primary : Store
  net : List OpSpec
  immediate : Option Store
deriving DecidableEq, Repr

/-- The initial system state: empty Primary Store, no declarations, shim
inactive. -/
def initState : SysState := { primary := [], net := [], immediate := none }

/-- Modelled from the spec: the one-time advisory message emitted by
activation unless suppressed (spec section 4.1). -/
def advisoryMessage : String :=
  "Immediate mode is an experimental debugging feature; results live in a separate workspace."

/-- Modelled from the spec: activate (workspace.StartImmediate).  Sets the
Activation State to active with an empty Auxiliary Store; fails with
AlreadyActiveError if already active.  Emits the advisory message unless
suppressed; messages are returned beside the state, not stored in it. -/
def activate (suppress : Bool) (s : SysState) : Except Err (SysState × List String) :=
  match s.immediate with
  | some _ => .error .alreadyActive
  | none =>
    .ok ({ s with immediate := some [] },
         if suppress then [] else [advisoryMessage])

/-- Modelled from the spec: deactivate (workspace.StopImmediate).  Discards
the Auxiliary Store; fails with NotActiveError if not active. -/
def deactivate (s : SysState) : Except Err SysState :=
  match s.immediate with
  | none => .error .notActive
  | some _ => .ok { s with immediate := none }

/-- Modelled from the spec: feed (workspace.FeedImmediate).  Writes a value
into the Auxiliary Store under the name, creating or overwriting the entry;
fails with NotActiveError while inactive. -/
def feed (n : String) (v : Value) (s : SysState) : Except Err SysState :=
  match s.immediate with
  | none => .error .notActive
  | some aux => .ok { s with immediate := some (feedStore aux n v) }

/-- Modelled from the spec: fetch (workspace.FetchImmediate).  Returns the
current value for the name from the Auxiliary Store; fails with NotActiveError
while inactive (spec section 8) and with NotFoundError if the name is absent. -/
def fetch (n : String) (s : SysState) : Except Err Value :=
  match s.immediate with
  | none => .error .notActive
  | some aux =>
    match lookupStore aux n with
    | some v => .ok v
    | none => .error (.notFound n)

/-- Modelled from the spec: resolve every input name against a store in
declaration order, failing with MissingInputError naming the first unresolved
input (spec section 4.1). -/
def resolveInputs (st : Store) : List String → Except Err (List Value)
  | [] => .ok []
  | n :: ns =>
    match lookupStore st n with
    | none => .error (.missingInput n)
    | some v =>
      match resolveInputs st ns with
      | .error e => .error e
      | .ok vs => .ok (v :: vs)

/-- Modelled from the spec: execute one operator against a store: resolve all
inputs, then (only on full success) compute the outputs with the external
engine and write them under the declared output names.  Failure is atomic: the
erroneous result carries no store, so nothing is written. -/
def runOp (engine : Engine) (op : OpSpec) (st : Store) : Except Err Store :=
  match resolveInputs st op.inputs with
  | .error e => .error e
  | .ok vals => .ok (writeOuts st (op.outputs.zip (engine op vals)))

/-- Modelled from the spec: the operations a caller can perform on the system
(spec sections 2, 4.1): toggle the shim, feed a value, declare an operator
through the Deferred Builder (core.CreateOperator), or explicitly trigger a
declared operator against the Primary Store (workspace.RunOperatorOnce). -/
inductive Cmd where
  | act (suppress : Bool)
  | deact
  | feedCmd (n : String) (v : Value)
  | declare (op : OpSpec)
  | runOnce (op : OpSpec)
deriving DecidableEq, Repr

/-- Modelled from the spec: one step of the system.  A declaration is always
recorded by the Deferred Builder; while the shim is active it is additionally
executed synchronously against the Auxiliary Store, never touching the Primary
Store.  An explicit trigger executes against the Primary Store.  On error the
state is returned unchanged beside the error. -/
def step (engine : Engine) : Cmd → SysState → SysState × Option Err
  | .act b, s =>
    match activate b s with
    | .ok (s2, _) => (s2, none)
    | .error e => (s, some e)
  | .deact, s =>
    match deactivate s with
    | .ok s2 => (s2, none)
    | .error e => (s, some e)
  | .feedCmd n v, s =>
    match feed n v s with
    | .ok s2 => (s2, none)
    | .error e => (s, some e)
  | .declare op, s =>
    match s.immediate with
    | none => ({ s with net := s.net ++ [op] }, none)
    | some aux =>
      match runOp engine op aux with
      | .ok aux2 => ({ s with net := s.net ++ [op], immediate := some aux2 }, none)
      | .error e => (s, some e)
  | .runOnce op, s =>
    match runOp engine op s.primary with
    | .ok p2 => ({ s with primary := p2 }, none)
    | .error e => (s, some e)

/-- Run a sequence of commands from a state, keeping the state component. -/
def run (engine : Engine) (cs : List Cmd) (s : SysState) : SysState :=
  cs.foldl (fun t c => (step engine c t).1) s

/-- The clamp-negative-to-zero rectification of a payload, the semantics of the
Relu operator used by the notebook. -/
def reluVal (v : Value) : Value :=
  v.map (fun row => row.map (fun x => if x < 0 then 0 else x))

/-- A concrete external engine covering the operators the scenarios use:
Relu rectifies its inputs elementwise; any other operator type fills each of
its declared outputs with an empty payload (standing in for a fill operator
such as GaussianFill, whose numeric content is irrelevant to the claims). -/
def extEngine : Engine := fun op vals =>
  if op.opType = "Relu" then vals.map reluVal
  else op.outputs.map (fun _ => [])

/-- Looking up a name in a store after a write: the written name maps to the
written value, every other name is unaffected. -/
theorem lookupStore_feedStore (st : Store) (n : String) (v : Value) (m : String) :
    lookupStore (feedStore st n v) m = if n = m then some v else lookupStore st m := by
  induction st with
  | nil => simp [feedStore, lookupStore]
  | cons hd rest ih =>
    obtain ⟨k, w⟩ := hd
    by_cases hk : k = n
    · subst hk
      simp only [feedStore, if_pos rfl, lookupStore]
      by_cases hm : k = m
      · subst hm; simp
      · simp [hm]
    · simp only [feedStore, if_neg hk, lookupStore]
      by_cases hm : k = m
      · subst hm
        have : ¬ n = k := fun h => hk h.symm
        simp [this]
      · simp [hm, ih]

/-- Writing the pair list never erases a name already present in the store. -/
theorem hasBlob_writeOuts_of_hasBlob (ps : List (String × Value)) (st : Store)
    (y : String) (h : hasBlob st y = true) : hasBlob (writeOuts st ps) y = true := by
  induction ps generalizing st with
  | nil => simpa [writeOuts] using h
  | cons hd rest ih =>
    obtain ⟨n, v⟩ := hd
    simp only [writeOuts]
    apply ih
    simp only [hasBlob, lookupStore_feedStore]
    by_cases hn : n = y
    · simp [hn]
    · simpa [hn, hasBlob] using h

/-- Every name appearing in the written pair list is present afterwards. -/
theorem hasBlob_writeOuts_of_mem (ps : List (String × Value)) (st : Store)
    (y : String) (h : y ∈ ps.map Prod.fst) : hasBlob (writeOuts st ps) y = true := by
  induction ps generalizing st with
  | nil => simp at h
  | cons hd rest ih =>
    obtain ⟨n, v⟩ := hd
    simp only [List.map_cons, List.mem_cons] at h
    simp only [writeOuts]
    rcases h with h | h
    · subst h
      apply hasBlob_writeOuts_of_hasBlob
      simp [hasBlob, lookupStore_feedStore]
    · exact ih _ h

/-- If scanning the input list finds a first name absent from the store, input
resolution fails with MissingInputError naming exactly that input. -/
theorem resolveInputs_error_of_find (st : Store) (names : List String) (n : String)
    (h : names.find? (fun i => (lookupStore st i).isNone) = some n) :
    resolveInputs st names = .error (.missingInput n) := by
  induction names with
  | nil => simp [List.find?] at h
  | cons hd rest ih =>
    rw [List.find?] at h
    cases hl : lookupStore st hd with
    | none =>
      rw [hl] at h
      simp at h
      subst h
      simp [resolveInputs, hl]
    | some v =>
      rw [hl] at h
      simp at h
      simp [resolveInputs, hl, ih h]

/-- Declaring an operator never changes the Primary Store, in any state. -/
theorem step_declare_primary (engine : Engine) (op : OpSpec) (s : SysState) :
    (step engine (.declare op) s).1.primary = s.primary := by
  cases h : s.immediate with
  | none => simp [step, h]
  | some aux =>
    cases h2 : runOp engine op aux with
    | ok aux2 => simp [step, h, h2]
    | error e => simp [step, h, h2]

/-- Equality of Except results is decidable when both components are, so that
concrete scenarios can be checked by evaluation. -/
instance {ε : Type u} {α : Type v} [DecidableEq ε] [DecidableEq α] :
    DecidableEq (Except ε α) := fun x y =>
  match x, y with
  | .ok a, .ok b =>
    if h : a = b then .isTrue (by rw [h]) else .isFalse (fun hh => h (Except.ok.inj hh))
  | .error e, .error f =>
    if h : e = f then .isTrue (by rw [h]) else .isFalse (fun hh => h (Except.error.inj hh))
  | .ok _, .error _ => .isFalse (fun hh => Except.noConfusion hh)
  | .error _, .ok _ => .isFalse (fun hh => Except.noConfusion hh)

/-- The operator declaration of the notebook's manual-feeding scenario:
a Relu with input X and output Y. -/
def opRelu : OpSpec := { opType := "Relu", inputs := ["X"], outputs := ["Y"] }

/-- The operator declaration of the notebook's first cells: a fill operator
with no inputs and output X. -/
def opGauss : OpSpec := { opType := "GaussianFill", inputs := [], outputs := ["X"] }

/-- A system state with the shim freshly activated over an otherwise initial
system. -/
def activeInit : SysState := { initState with immediate := some [] }

/-- Claim C1: while the shim is active, feeding a value under a name and then
fetching that name with no intervening write returns exactly that value. -/
theorem feed_fetch_roundtrip (s : SysState) (aux : Store) (n : String) (v : Value)
    (h : s.immediate = some aux) :
    ∃ s2, feed n v s = .ok s2 ∧ fetch n s2 = .ok v := by
  refine ⟨{ s with immediate := some (feedStore aux n v) }, ?_, ?_⟩
  · simp [feed, h]
  · simp [fetch, lookupStore_feedStore]

/-- Witness for C1 at a concrete state and value. -/
theorem feed_fetch_roundtrip_witness :
    ∃ s2, feed "X" [[5]] activeInit = .ok s2 ∧ fetch "X" s2 = .ok [[5]] :=
  feed_fetch_roundtrip activeInit [] "X" [[5]] rfl

/-- Claim C6: fetching any name while the shim is inactive fails with
NotActiveError. -/
theorem fetch_inactive_notActive (s : SysState) (n : String)
    (h : s.immediate = none) : fetch n s = .error .notActive := by
  simp [fetch, h]

/-- Witness for C6 at the initial state. -/
theorem fetch_inactive_notActive_witness :
    fetch "X" initState = .error .notActive :=
  fetch_inactive_notActive initState "X" rfl

/-- Claim C5: from every state reachable by a command sequence in which the
shim is currently active, activating again fails with AlreadyActiveError and
leaves the state unchanged. -/
theorem activate_twice_alreadyActive (engine : Engine) (cs : List Cmd) (b : Bool)
    (h : (run engine cs initState).immediate.isSome = true) :
    step engine (.act b) (run engine cs initState)
      = (run engine cs initState, some .alreadyActive) := by
  cases hi : (run engine cs initState).immediate with
  | none => rw [hi] at h; simp at h
  | some aux => simp [step, activate, hi]

/-- Witness for C5: after activating once, activating again fails. -/
theorem activate_twice_alreadyActive_witness :
    (run extEngine [Cmd.act true] initState).immediate.isSome = true ∧
    step extEngine (.act true) (run extEngine [Cmd.act true] initState)
      = (run extEngine [Cmd.act true] initState, some .alreadyActive) :=
  ⟨rfl, activate_twice_alreadyActive extEngine [Cmd.act true] true rfl⟩

/-- Claim C9: from the same inactive state, activation with the warning
suppressed and activation without produce the identical resulting state (shim
active over an empty Auxiliary Store); only the emitted advisory message
differs. -/
theorem activate_suppress_equiv (s : SysState) (h : s.immediate = none) :
    activate true s = .ok ({ s with immediate := some [] }, []) ∧
    activate false s = .ok ({ s with immediate := some [] }, [advisoryMessage]) := by
  constructor <;> simp [activate, h]

/-- Witness for C9 at the initial state. -/
theorem activate_suppress_equiv_witness :
    activate true initState = .ok ({ initState with immediate := some [] }, []) ∧
    activate false initState
      = .ok ({ initState with immediate := some [] }, [advisoryMessage]) :=
  activate_suppress_equiv initState rfl

/-- Claim C2: declaring an operator while the shim is active leaves the
Primary Store completely unchanged; in particular an output name absent from
the Primary Store before the declaration is still absent after it. -/
theorem declare_primary_frame (engine : Engine) (op : OpSpec) (s : SysState)
    (aux : Store) (x : String) (h : s.immediate = some aux) :
    (step engine (.declare op) s).1.primary = s.primary ∧
    (hasBlob s.primary x = false →
      hasBlob (step engine (.declare op) s).1.primary x = false) := by
  refine ⟨step_declare_primary engine op s, ?_⟩
  intro hx
  rw [step_declare_primary]
  exact hx

/-- Witness for C2: declaring the fill operator in a fresh immediate session
leaves the empty Primary Store without X. -/
theorem declare_primary_frame_witness :
    (step extEngine (.declare opGauss) activeInit).1.primary = activeInit.primary ∧
    (hasBlob activeInit.primary "X" = false →
      hasBlob (step extEngine (.declare opGauss) activeInit).1.primary "X" = false) :=
  declare_primary_frame extEngine opGauss activeInit [] "X" rfl

/-- Claim C3: declaring an operator while active with at least one input name
absent from the Auxiliary Store fails with MissingInputError naming the first
unresolved input, and the whole state, in particular the Auxiliary Store, is
exactly what it was before the call. -/
theorem declare_missing_input_atomic (engine : Engine) (op : OpSpec) (s : SysState)
    (aux : Store) (h : s.immediate = some aux)
    (habs : ∃ i ∈ op.inputs, lookupStore aux i = none) :
    ∃ n, op.inputs.find? (fun i => (lookupStore aux i).isNone) = some n ∧
      step engine (.declare op) s = (s, some (.missingInput n)) ∧
      (step engine (.declare op) s).1.immediate = s.immediate := by
  have hfind : (op.inputs.find? (fun i => (lookupStore aux i).isNone)).isSome := by
    rw [List.find?_isSome]
    obtain ⟨i, hi, hnone⟩ := habs
    exact ⟨i, hi, by simp [hnone]⟩
  obtain ⟨n, hn⟩ := Option.isSome_iff_exists.mp hfind
  have hres := resolveInputs_error_of_find aux op.inputs n hn
  have hstep : step engine (.declare op) s = (s, some (.missingInput n)) := by
    simp [step, h, runOp, hres]
  exact ⟨n, hn, hstep, by rw [hstep]⟩

/-- Witness for C3: declaring the Relu before feeding X fails naming X and
changes nothing, as in the notebook's manual-feeding cell. -/
theorem declare_missing_input_atomic_witness :
    ∃ n, opRelu.inputs.find? (fun i => (lookupStore [] i).isNone) = some n ∧
      step extEngine (.declare opRelu) activeInit
        = (activeInit, some (.missingInput n)) ∧
      (step extEngine (.declare opRelu) activeInit).1.immediate
        = activeInit.immediate :=
  declare_missing_input_atomic extEngine opRelu activeInit [] rfl
    ⟨"X", by decide, rfl⟩

/-- Claim C4: a value fed during one activation session does not survive into
the next: feeding a name, deactivating and reactivating yields an empty
Auxiliary Store, and fetching that name fails with NotFoundError. -/
theorem no_persistence_across_sessions (s : SysState) (aux : Store)
    (n : String) (v : Value) (h : s.immediate = some aux) :
    ∃ s1 s2 s3 msgs,
      feed n v s = .ok s1 ∧
      deactivate s1 = .ok s2 ∧
      activate true s2 = .ok (s3, msgs) ∧
      s3.immediate = some [] ∧
      fetch n s3 = .error (.notFound n) := by
  refine ⟨{ s with immediate := some (feedStore aux n v) },
          { s with immediate := none },
          { s with immediate := some [] }, [], ?_, ?_, ?_, rfl, ?_⟩
  · simp [feed, h]
  · simp [deactivate]
  · simp [activate]
  · simp [fetch, lookupStore]

/-- Witness for C4 at a concrete session. -/
theorem no_persistence_across_sessions_witness :
    ∃ s1 s2 s3 msgs,
      feed "X" [[7]] activeInit = .ok s1 ∧
      deactivate s1 = .ok s2 ∧
      activate true s2 = .ok (s3, msgs) ∧
      s3.immediate = some [] ∧
      fetch "X" s3 = .error (.notFound "X") :=
  no_persistence_across_sessions activeInit [] "X" [[7]] rfl

/-- Claim C8: while the shim is inactive, declaring an operator through the
Deferred Builder leaves the Primary Store unchanged; the declared outputs
appear in the Primary Store only once the operator is explicitly triggered
(workspace.RunOperatorOnce), provided its inputs resolve there and the engine
produces one value per declared output. -/
theorem deferred_declare_then_trigger (engine : Engine) (op : OpSpec) (s : SysState)
    (h : s.immediate = none) :
    (step engine (.declare op) s).1.primary = s.primary ∧
    (∀ vals, resolveInputs s.primary op.inputs = .ok vals →
      (engine op vals).length = op.outputs.length →
      ∀ y ∈ op.outputs, hasBlob (step engine (.runOnce op) s).1.primary y = true) := by
  refine ⟨step_declare_primary engine op s, ?_⟩
  intro vals hres hlen y hy
  have hrun : runOp engine op s.primary
      = .ok (writeOuts s.primary (op.outputs.zip (engine op vals))) := by
    simp [runOp, hres]
  simp only [step, hrun]
  apply hasBlob_writeOuts_of_mem
  rw [List.map_fst_zip]
  · exact hy
  · exact le_of_eq hlen.symm

/-- Witness for C8: the notebook's first cells, where the fill operator's
output X reaches the main workspace only after RunOperatorOnce. -/
theorem deferred_declare_then_trigger_witness :
    (step extEngine (.declare opGauss) initState).1.primary = initState.primary ∧
    hasBlob (step extEngine (.runOnce opGauss) initState).1.primary "X" = true :=
  ⟨(deferred_declare_then_trigger extEngine opGauss initState rfl).1,
   (deferred_declare_then_trigger extEngine opGauss initState rfl).2 [] rfl
     (by decide) "X" (by decide)⟩

/-- Claim C10: declaring an operator with an empty input list while the shim
is active never fails with MissingInputError, and each declared output is
written into the Auxiliary Store, so fetching it afterwards succeeds (assuming
the engine produces one value per declared output). -/
theorem declare_empty_inputs_succeeds (engine : Engine) (op : OpSpec) (s : SysState)
    (aux : Store) (h : s.immediate = some aux) (hin : op.inputs = [])
    (hlen : (engine op []).length = op.outputs.length) :
    (step engine (.declare op) s).2 = none ∧
    ∀ y ∈ op.outputs, ∃ v, fetch y (step engine (.declare op) s).1 = .ok v := by
  have hres : resolveInputs aux op.inputs = .ok [] := by rw [hin]; rfl
  have hrun : runOp engine op aux
      = .ok (writeOuts aux (op.outputs.zip (engine op []))) := by
    simp [runOp, hres]
  constructor
  · simp [step, h, hrun]
  · intro y hy
    have hhas : hasBlob (writeOuts aux (op.outputs.zip (engine op []))) y = true := by
      apply hasBlob_writeOuts_of_mem
      rw [List.map_fst_zip]
      · exact hy
      · exact le_of_eq hlen.symm
    cases hl : lookupStore (writeOuts aux (op.outputs.zip (engine op []))) y with
    | none =>
      simp only [hasBlob, hl, Option.isSome_none] at hhas
      exact Bool.noConfusion hhas
    | some v =>
      refine ⟨v, ?_⟩
      simp [step, h, hrun, fetch, hl]

/-- Witness for C10: the notebook's fill operator, declared in immediate mode
with no inputs, runs and its output X is fetchable. -/
theorem declare_empty_inputs_succeeds_witness :
    (step extEngine (.declare opGauss) activeInit).2 = none ∧
    ∃ v, fetch "X" (step extEngine (.declare opGauss) activeInit).1 = .ok v :=
  ⟨(declare_empty_inputs_succeeds extEngine opGauss activeInit [] rfl rfl
      (by decide)).1,
   (declare_empty_inputs_succeeds extEngine opGauss activeInit [] rfl rfl
      (by decide)).2 "X" (by decide)⟩

/-- The notebook's manual-feeding scenario as a command sequence: activate,
feed X with the matrix of claim C7, declare the Relu. -/
def reluScenario : List Cmd :=
  [.act true, .feedCmd "X" [[1, -1], [2, -2]], .declare opRelu]

/-- Claim C7: in an active session, after feeding X = [[1,-1],[2,-2]] and
declaring the rectifying operator with input X and output Y, fetching Y
returns [[1,0],[2,0]], and at every point of the scenario the Primary Store
does not contain Y. -/
theorem relu_scenario_correct :
    fetch "Y" (run extEngine reluScenario initState) = .ok [[1, 0], [2, 0]] ∧
    hasBlob (run extEngine (reluScenario.take 0) initState).primary "Y" = false ∧
    hasBlob (run extEngine (reluScenario.take 1) initState).primary "Y" = false ∧
    hasBlob (run extEngine (reluScenario.take 2) initState).primary "Y" = false ∧
    hasBlob (run extEngine (reluScenario.take 3) initState).primary "Y" = false := by
  refine ⟨by decide, by decide, by decide, by decide, by decide⟩

end Immediate
